import Mathlib

/-!
Verification of the video-downloader Telegram bot (files `server_bot.py`,
`render_bot.py`): a shallow embedding in Lean 4 of the size-limit policy,
premium-set toggling, file chunking, retrying metadata extraction,
error-message dispatch, temp-file cleanup and duration formatting, together
with theorems settling the specification's claims about them.
-/

namespace VideoBot

/-! ## Constants (`ServerVideoBot.__init__`, `RenderVideoBot.__init__`) -/

/-- Code: `self.max_file_size_regular = 50 * 1024 * 1024` (server_bot.py line 43). -/
def max_file_size_regular : Nat := 50 * 1024 * 1024

/-- Code: `self.max_file_size_premium = 2 * 1024 * 1024 * 1024` (server_bot.py line 44). -/
def max_file_size_premium : Nat := 2 * 1024 * 1024 * 1024

/-- Code: `self.chunk_size = 45 * 1024 * 1024` (server_bot.py line 45). -/
def chunk_size : Nat := 45 * 1024 * 1024

/-- Code: `self.max_file_size = 50 * 1024 * 1024` (render_bot.py line 47). -/
def max_file_size : Nat := 50 * 1024 * 1024

/-! ## File splitting (`ServerVideoBot._split_file`, server_bot.py lines 457-481)

A file's contents are modelled as a `List Nat` of its bytes.  The Python loop
repeatedly does `chunk = input_file.read(self.chunk_size)` and stops on an
empty chunk, appending each chunk as one part; `read k` on the current
position returns the next `min k remaining` bytes (and `read 0` returns the
empty bytes object, so a zero chunk size would stop at once). -/

/-- The splitting loop of `_split_file`, generic in the chunk size. -/
def splitFile (chunkSize : Nat) : List Nat → List (List Nat)
  | [] => []
  | b :: rest =>
    if chunkSize = 0 then []
    else
      List.take chunkSize (b :: rest) ::
        splitFile chunkSize (List.drop chunkSize (b :: rest))
termination_by l => l.length
decreasing_by
  simp only [List.length_drop, List.length_cons]
  omega

/-- Code: `parts_count = math.ceil(file_size / self.chunk_size)` announced by
`_send_large_video_parts` (server_bot.py line 418); for the sizes involved
(below 2^53) float division followed by `math.ceil` computes the exact
integer ceiling. -/
def sendLargePartsCount (fileSize : Nat) : Nat :=
  (fileSize + chunk_size - 1) / chunk_size

theorem splitFile_nil (c : Nat) : splitFile c [] = [] := by
  simp [splitFile]

theorem splitFile_cons (c : Nat) (hc : 0 < c) (b : Nat) (rest : List Nat) :
    splitFile c (b :: rest) =
      List.take c (b :: rest) :: splitFile c (List.drop c (b :: rest)) := by
  rw [splitFile]
  simp [Nat.pos_iff_ne_zero.mp hc]

theorem splitFile_flatten (c : Nat) (hc : 0 < c) :
    ∀ l : List Nat, (splitFile c l).flatten = l := by
  intro l
  induction l using splitFile.induct c with
  | case1 => simp [splitFile]
  | case2 b rest h => omega
  | case3 b rest h ih =>
    rw [splitFile_cons c hc]
    simp [List.flatten, ih]

theorem splitFile_length (c : Nat) (hc : 0 < c) :
    ∀ l : List Nat, (splitFile c l).length = (l.length + c - 1) / c := by
  intro l
  induction l using splitFile.induct c with
  | case1 =>
    simp only [splitFile_nil, List.length_nil, Nat.zero_add]
    exact (Nat.div_eq_of_lt (by omega)).symm
  | case2 b rest h => omega
  | case3 b rest h ih =>
    rw [splitFile_cons c hc]
    have hd : (List.drop c (b :: rest)).length = rest.length + 1 - c := by
      simp [List.length_drop]
    rw [List.length_cons, ih, hd]
    simp only [List.length_cons]
    rcases le_or_lt (rest.length + 1) c with hle | hlt
    · have h1 : rest.length + 1 - c = 0 := by omega
      rw [h1]
      have h2 : (rest.length + 1 + c - 1) / c = 1 := by
        have h4 : rest.length + 1 + c - 1 = (rest.length + 1 - 1) + c := by omega
        rw [h4, Nat.add_div_right _ hc]
        have h5 : (rest.length + 1 - 1) / c = 0 := Nat.div_eq_of_lt (by omega)
        omega
      have h6 : (0 + c - 1) / c = 0 := Nat.div_eq_of_lt (by omega)
      omega
    · have h3 : rest.length + 1 + c - 1 = (rest.length + 1 - c + c - 1) + c := by
        omega
      rw [h3, Nat.add_div_right _ hc]

theorem splitFile_parts_bounds (c : Nat) (hc : 0 < c) :
    ∀ l : List Nat, ∀ p ∈ splitFile c l, 0 < p.length ∧ p.length ≤ c := by
  intro l
  induction l using splitFile.induct c with
  | case1 => simp [splitFile]
  | case2 b rest h => omega
  | case3 b rest h ih =>
    rw [splitFile_cons c hc]
    intro p hp
    rcases List.mem_cons.mp hp with hhead | htail
    · subst hhead
      constructor
      · rw [List.take_cons hc]
        simp
      · simp only [List.length_take, List.length_cons]
        omega
    · exact ih p htail

theorem splitFile_init_length (c : Nat) (hc : 0 < c) :
    ∀ l : List Nat, ∀ i, i + 1 < (splitFile c l).length →
      ∃ p, (splitFile c l)[i]? = some p ∧ p.length = c := by
  intro l
  induction l using splitFile.induct c with
  | case1 => simp [splitFile]
  | case2 b rest h => omega
  | case3 b rest h ih =>
    rw [splitFile_cons c hc]
    intro i hi
    match i with
    | 0 =>
      refine ⟨List.take c (b :: rest), by simp, ?_⟩
      simp only [List.length_cons] at hi
      have hrec := splitFile_length c hc (List.drop c (b :: rest))
      have hdl : (List.drop c (b :: rest)).length = rest.length + 1 - c := by
        simp [List.length_drop]
      by_contra hne
      have hlen : (List.take c (b :: rest)).length = min c (rest.length + 1) := by
        simp [List.length_take]
      have hcase : rest.length + 1 < c := by
        rcases le_or_lt c (rest.length + 1) with hle | hlt
        · exact absurd (by rw [hlen]; omega) hne
        · exact hlt
      have hz : (splitFile c (List.drop c (b :: rest))).length = 0 := by
        rw [hrec, hdl]
        have : rest.length + 1 - c = 0 := by omega
        rw [this]
        exact Nat.div_eq_of_lt (by omega)
      omega
    | j + 1 =>
      simp only [List.getElem?_cons_succ]
      exact ih j (by simpa using Nat.lt_of_succ_lt_succ (by simpa using hi))

theorem chunk_size_pos : 0 < chunk_size := by decide

/-- C1: for every non-empty file, `_split_file` returns exactly
`ceil(n / (45*1024*1024))` parts, read sequentially from the start (their
concatenation in order is the original contents), every part is non-empty and
at most 45 MB, every part except possibly the last is exactly 45 MB, and the
parts count announced by `_send_large_video_parts` equals the number of parts
`_split_file` produces. -/
theorem C1_split_file_correct (l : List Nat) (hl : l ≠ []) :
    (splitFile chunk_size l).flatten = l ∧
    (splitFile chunk_size l).length = (l.length + chunk_size - 1) / chunk_size ∧
    splitFile chunk_size l ≠ [] ∧
    (∀ p ∈ splitFile chunk_size l, 0 < p.length ∧ p.length ≤ chunk_size) ∧
    (∀ i, i + 1 < (splitFile chunk_size l).length →
      ∃ p, (splitFile chunk_size l)[i]? = some p ∧ p.length = chunk_size) ∧
    sendLargePartsCount l.length = (splitFile chunk_size l).length := by
  have hc := chunk_size_pos
  refine ⟨splitFile_flatten chunk_size hc l, splitFile_length chunk_size hc l,
    ?_, splitFile_parts_bounds chunk_size hc l,
    splitFile_init_length chunk_size hc l, ?_⟩
  · match l with
    | [] => exact absurd rfl hl
    | b :: rest =>
      rw [splitFile_cons chunk_size hc]
      exact List.cons_ne_nil _ _
  · rw [splitFile_length chunk_size hc l]
    rfl

theorem C1_split_file_correct_witness :
    ([1, 2, 3] : List Nat) ≠ [] ∧
    ((splitFile chunk_size [1, 2, 3]).flatten = [1, 2, 3] ∧
    (splitFile chunk_size [1, 2, 3]).length =
      (([1, 2, 3] : List Nat).length + chunk_size - 1) / chunk_size ∧
    splitFile chunk_size [1, 2, 3] ≠ [] ∧
    (∀ p ∈ splitFile chunk_size [1, 2, 3], 0 < p.length ∧ p.length ≤ chunk_size) ∧
    (∀ i, i + 1 < (splitFile chunk_size [1, 2, 3]).length →
      ∃ p, (splitFile chunk_size [1, 2, 3])[i]? = some p ∧ p.length = chunk_size) ∧
    sendLargePartsCount ([1, 2, 3] : List Nat).length =
      (splitFile chunk_size [1, 2, 3]).length) :=
  ⟨by decide, C1_split_file_correct [1, 2, 3] (by decide)⟩

/-! ## Size check and premium set (`ServerVideoBot`, server_bot.py)

`_process_video_url` (lines 259-273) computes
`is_premium = user_id in self.premium_users`,
`max_size = self.max_file_size_premium if is_premium else self.max_file_size_regular`,
and rejects with the too-large message exactly when
`file_size > max_size and not is_premium`; otherwise it proceeds to download.
`premium_command` (lines 150-167) toggles the caller's membership in the
in-memory `premium_users` set, which `__init__` (line 68) creates as `set()`. -/

/-- The `premium_users` set right after `ServerVideoBot.__init__` ran
(`self.premium_users = set()`). -/
def initialPremiumUsers : Finset Nat := ∅

/-- The state update performed by one invocation of `/premium`
(`ServerVideoBot.premium_command`). -/
def premiumCommand (premiumUsers : Finset Nat) (userId : Nat) : Finset Nat :=
  if userId ∈ premiumUsers then premiumUsers.erase userId
  else insert userId premiumUsers

/-- Code: `file_size > max_size and not is_premium`: the condition under which
`ServerVideoBot._process_video_url` edits the status message to the
"Файл слишком большой" text and returns without downloading. -/
def serverSizeCheckRejects (premiumUsers : Finset Nat) (userId : Nat)
    (fileSize : Nat) : Bool :=
  let is_premium := userId ∈ premiumUsers
  let max_size := if is_premium then max_file_size_premium
    else max_file_size_regular
  decide (fileSize > max_size) && !(decide is_premium)

/-- Code: `file_size > self.max_file_size`: the condition under which
`RenderVideoBot._process_video_url` (render_bot.py lines 418-428) edits the
status message to the too-large text and returns without downloading. -/
def renderSizeCheckRejects (fileSize : Nat) : Bool :=
  decide (fileSize > max_file_size)

/-- C2 counterexample: a premium user (id 5 in the premium set) requests a
video whose reported size exceeds the 2 GB premium ceiling, yet the size
check does not reject the request — the rejection condition requires
`not is_premium`, so premium users are never rejected. -/
theorem C2_premium_over_ceiling_not_rejected :
    (5 : Nat) ∈ ({5} : Finset Nat) ∧
    max_file_size_premium + 1 > max_file_size_premium ∧
    serverSizeCheckRejects {5} 5 (max_file_size_premium + 1) = false := by
  refine ⟨by decide, by omega, ?_⟩
  decide

/-- C2 (amended): for every user in the premium set, the size check of
`_process_video_url` never rejects, whatever the reported file size; in
particular sizes at or below the 2 GB premium ceiling are accepted. -/
theorem C2_premium_size_check (premiumUsers : Finset Nat) (userId : Nat)
    (fileSize : Nat) (hmem : userId ∈ premiumUsers) :
    serverSizeCheckRejects premiumUsers userId fileSize = false := by
  simp [serverSizeCheckRejects, hmem]

theorem C2_premium_size_check_witness :
    (7 : Nat) ∈ ({7} : Finset Nat) ∧
    serverSizeCheckRejects {7} 7 (3 * 1024 * 1024 * 1024) = false :=
  ⟨by decide, C2_premium_size_check {7} 7 (3 * 1024 * 1024 * 1024) (by decide)⟩

/-- C5: for a user not in the premium set, the size check of
`ServerVideoBot._process_video_url` rejects exactly when the reported size
exceeds the 50 MB regular ceiling, and the size check of
`RenderVideoBot._process_video_url` rejects exactly when the reported size
exceeds its 50 MB ceiling. -/
theorem C5_regular_size_check (premiumUsers : Finset Nat) (userId : Nat)
    (fileSize : Nat) (hmem : userId ∉ premiumUsers) :
    (serverSizeCheckRejects premiumUsers userId fileSize = true ↔
      max_file_size_regular < fileSize) ∧
    (renderSizeCheckRejects fileSize = true ↔ max_file_size < fileSize) := by
  constructor
  · simp [serverSizeCheckRejects, hmem]
  · simp [renderSizeCheckRejects]

theorem C5_regular_size_check_witness :
    (9 : Nat) ∉ (∅ : Finset Nat) ∧
    ((serverSizeCheckRejects ∅ 9 (50 * 1024 * 1024 + 1) = true ↔
      max_file_size_regular < 50 * 1024 * 1024 + 1) ∧
    (renderSizeCheckRejects (50 * 1024 * 1024 + 1) = true ↔
      max_file_size < 50 * 1024 * 1024 + 1)) :=
  ⟨by decide, C5_regular_size_check ∅ 9 (50 * 1024 * 1024 + 1) (by decide)⟩

/-- C6: `/premium` toggles exactly the invoking user's membership in the
in-memory premium set, leaves every other user unchanged, is an involution
(two invocations by the same user restore the set), and the set starts empty
at process start. -/
theorem C6_premium_command_involution (s : Finset Nat) (userId : Nat) :
    (userId ∈ premiumCommand s userId ↔ userId ∉ s) ∧
    (∀ v, v ≠ userId → (v ∈ premiumCommand s userId ↔ v ∈ s)) ∧
    premiumCommand (premiumCommand s userId) userId = s ∧
    initialPremiumUsers = ∅ := by
  refine ⟨?_, ?_, ?_, rfl⟩
  · by_cases hmem : userId ∈ s <;>
      simp [premiumCommand, hmem]
  · intro v hv
    by_cases hmem : userId ∈ s <;>
      simp [premiumCommand, hmem, hv, Finset.mem_erase, Finset.mem_insert]
  · by_cases hmem : userId ∈ s
    · have h1 : premiumCommand s userId = s.erase userId := by
        simp [premiumCommand, hmem]
      rw [h1]
      have h2 : userId ∉ s.erase userId := Finset.not_mem_erase _ _
      simp [premiumCommand, h2, Finset.insert_erase hmem]
    · have h1 : premiumCommand s userId = insert userId s := by
        simp [premiumCommand, hmem]
      rw [h1]
      have h2 : userId ∈ insert userId s := Finset.mem_insert_self _ _
      simp [premiumCommand, h2, Finset.erase_insert hmem]

theorem C6_premium_command_involution_witness :
    ((4 : Nat) ∈ premiumCommand ∅ 4 ↔ (4 : Nat) ∉ (∅ : Finset Nat)) ∧
    (∀ v, v ≠ 4 → (v ∈ premiumCommand ∅ 4 ↔ v ∈ (∅ : Finset Nat))) ∧
    premiumCommand (premiumCommand ∅ 4) 4 = (∅ : Finset Nat) ∧
    initialPremiumUsers = ∅ :=
  C6_premium_command_involution ∅ 4

/-! ## Duration formatting (`ServerVideoBot._format_duration`,
server_bot.py lines 353-365) -/

/-- Python's `f"{n:02d}"`: decimal digits of `n` left-padded with zeros to
width two. -/
def pad2 (n : Nat) : String :=
  if n < 10 then "0" ++ Nat.repr n else Nat.repr n

/-- Code: `ServerVideoBot._format_duration`. -/
def formatDuration (seconds : Nat) : String :=
  if seconds = 0 then "Неизвестно"
  else
    let hours := seconds / 3600
    let minutes := (seconds % 3600) / 60
    let secs := seconds % 60
    if hours > 0 then
      pad2 hours ++ ":" ++ pad2 minutes ++ ":" ++ pad2 secs
    else
      pad2 minutes ++ ":" ++ pad2 secs

theorem string_data_append (a b : String) : (a ++ b).data = a.data ++ b.data := by
  cases a
  cases b
  rfl

theorem colon_mem_triple (a b c : String) :
    ':' ∈ (a ++ ":" ++ b ++ ":" ++ c).data := by
  simp only [string_data_append, List.mem_append]
  left; left; left; right
  simp [String.data]

theorem colon_mem_pair (a b : String) : ':' ∈ (a ++ ":" ++ b).data := by
  simp only [string_data_append, List.mem_append]
  left; right
  simp [String.data]

theorem colon_not_mem_unknown : ':' ∉ ("Неизвестно" : String).data := by
  decide

/-- C10: `_format_duration` is total on naturals, returns "Неизвестно"
exactly on input 0, prints `HH:MM:SS` for inputs of an hour or more and
`MM:SS` below an hour, with minute and second fields below 60, and the
printed fields recover the input via `hours*3600 + minutes*60 + seconds`. -/
theorem C10_format_duration (s : Nat) :
    (formatDuration s = "Неизвестно" ↔ s = 0) ∧
    (0 < s →
      (3600 ≤ s →
        formatDuration s =
          pad2 (s / 3600) ++ ":" ++ pad2 ((s % 3600) / 60) ++ ":" ++
            pad2 (s % 60)) ∧
      (s < 3600 →
        formatDuration s = pad2 ((s % 3600) / 60) ++ ":" ++ pad2 (s % 60)) ∧
      (s % 3600) / 60 < 60 ∧ s % 60 < 60 ∧
      (s / 3600) * 3600 + ((s % 3600) / 60) * 60 + s % 60 = s) := by
  constructor
  · constructor
    · intro hEq
      by_contra hs
      have hcolon : ':' ∈ (formatDuration s).data := by
        by_cases hh : 0 < s / 3600
        · have : formatDuration s =
              pad2 (s / 3600) ++ ":" ++ pad2 ((s % 3600) / 60) ++ ":" ++
                pad2 (s % 60) := by
            simp [formatDuration, hs, hh]
          rw [this]
          exact colon_mem_triple _ _ _
        · have : formatDuration s =
              pad2 ((s % 3600) / 60) ++ ":" ++ pad2 (s % 60) := by
            simp [formatDuration, hs, hh]
          rw [this]
          exact colon_mem_pair _ _
      rw [hEq] at hcolon
      exact colon_not_mem_unknown hcolon
    · intro h0
      subst h0
      simp [formatDuration]
  · intro hpos
    have hs : s ≠ 0 := Nat.pos_iff_ne_zero.mp hpos
    refine ⟨?_, ?_, by omega, by omega, by omega⟩
    · intro h36
      have hh : 0 < s / 3600 := Nat.div_pos h36 (by norm_num)
      simp [formatDuration, hs, hh]
    · intro hlt
      have hh : s / 3600 = 0 := Nat.div_eq_of_lt hlt
      simp [formatDuration, hs, hh]

theorem C10_format_duration_witness :
    (formatDuration 3725 = "Неизвестно" ↔ (3725 : Nat) = 0) ∧
    (0 < (3725 : Nat) →
      (3600 ≤ (3725 : Nat) →
        formatDuration 3725 =
          pad2 (3725 / 3600) ++ ":" ++ pad2 ((3725 % 3600) / 60) ++ ":" ++
            pad2 (3725 % 60)) ∧
      ((3725 : Nat) < 3600 →
        formatDuration 3725 = pad2 ((3725 % 3600) / 60) ++ ":" ++ pad2 (3725 % 60)) ∧
      (3725 % 3600) / 60 < 60 ∧ (3725 : Nat) % 60 < 60 ∧
      (3725 / 3600) * 3600 + ((3725 % 3600) / 60) * 60 + 3725 % 60 = 3725) :=
  C10_format_duration 3725

/-! ## Command handlers with missing argument (C9)

`ServerVideoBot.download_command` / `info_command` (server_bot.py lines
169-189) and `RenderVideoBot.download_command` / `check_command`
(render_bot.py lines 283-292 and 196-205) all begin with
`if not context.args: await update.message.reply_text(...); return`. -/

/-- The mutable state of a bot process that the handlers could touch: the
in-memory premium set and the set of paths present in the temporary
directory. -/
structure BotState where
  premiumUsers : Finset Nat
  tempFiles : Finset String

/-- The outward action a command handler decides on: reply with a fixed
text, hand the URL to `_process_video_url` (with its `download` flag), or
run the `/check` inspection on the URL. -/
inductive HandlerAction where
  | replyText (msg : String)
  | processUrl (url : String) (download : Bool)
  | checkUrl (url : String)
deriving DecidableEq

/-- Code: `ServerVideoBot.download_command`. -/
def serverDownloadCommand (args : List String) (st : BotState) :
    HandlerAction × BotState :=
  match args with
  | [] => (.replyText
      "❌ Укажите ссылку!\nПример: /download https://youtu.be/dQw4w9WgXcQ", st)
  | url :: _ => (.processUrl url true, st)

/-- Code: `ServerVideoBot.info_command`. -/
def serverInfoCommand (args : List String) (st : BotState) :
    HandlerAction × BotState :=
  match args with
  | [] => (.replyText
      "❌ Укажите ссылку!\nПример: /info https://youtu.be/dQw4w9WgXcQ", st)
  | url :: _ => (.processUrl url false, st)

/-- Code: `RenderVideoBot.download_command`. -/
def renderDownloadCommand (args : List String) (st : BotState) :
    HandlerAction × BotState :=
  match args with
  | [] => (.replyText
      "❌ Укажите ссылку!\nПример: /download https://youtu.be/dQw4w9WgXcQ", st)
  | url :: _ => (.processUrl url true, st)

/-- Code: `RenderVideoBot.check_command`. -/
def renderCheckCommand (args : List String) (st : BotState) :
    HandlerAction × BotState :=
  match args with
  | [] => (.replyText
      "❌ Укажите ссылку для проверки!\nПример: /check https://youtu.be/dQw4w9WgXcQ", st)
  | url :: _ => (.checkUrl url, st)

/-- C9: invoked with no argument, each of `/download`, `/info` and `/check`
replies with its fixed usage message, performs no extraction, download or
send (the decided action is a plain text reply, never a URL-processing
action), and leaves the premium set and the temporary directory contents
unchanged. -/
theorem C9_no_arg_usage_reply (st : BotState) :
    serverDownloadCommand [] st = (.replyText
      "❌ Укажите ссылку!\nПример: /download https://youtu.be/dQw4w9WgXcQ", st) ∧
    serverInfoCommand [] st = (.replyText
      "❌ Укажите ссылку!\nПример: /info https://youtu.be/dQw4w9WgXcQ", st) ∧
    renderDownloadCommand [] st = (.replyText
      "❌ Укажите ссылку!\nПример: /download https://youtu.be/dQw4w9WgXcQ", st) ∧
    renderCheckCommand [] st = (.replyText
      "❌ Укажите ссылку для проверки!\nПример: /check https://youtu.be/dQw4w9WgXcQ", st) ∧
    (∀ msg url d, HandlerAction.replyText msg ≠ HandlerAction.processUrl url d) ∧
    (∀ msg url, HandlerAction.replyText msg ≠ HandlerAction.checkUrl url) := by
  refine ⟨rfl, rfl, rfl, rfl, ?_, ?_⟩
  · intro msg url d h
    exact HandlerAction.noConfusion h
  · intro msg url h
    exact HandlerAction.noConfusion h

/-! ## Temporary-file cleanup (C7)

The filesystem is modelled as the finite set of paths that currently exist.
`Path(file_path).unlink()` inside `try/except: pass`
(`ServerVideoBot._cleanup_temp_files`, server_bot.py lines 483-489, and the
per-file loop of `RenderVideoBot._send_video`, render_bot.py lines 729-734)
is an erase that ignores a missing file.  In both bots the deletion loop runs
after the `reply_video` call inside the same `try` block, so when the send
raises, the broad `except` handler skips it.  `ServerVideoBot.run`
(server_bot.py lines 491-504) ends with
`shutil.rmtree(self.temp_dir, ignore_errors=True)` in its `finally` block. -/

/-- One `Path(p).unlink()` wrapped in `try/except: pass`. -/
def unlinkIgnoringErrors (fs : Finset String) (p : String) : Finset String :=
  fs.erase p

/-- Code: `ServerVideoBot._cleanup_temp_files`: unlink every recorded file,
ignoring per-file errors. -/
def cleanupTempFiles (fs : Finset String) (files : List String) : Finset String :=
  files.foldl unlinkIgnoringErrors fs

/-- The filesystem effect of `ServerVideoBot._send_video_to_chat`:
`_cleanup_temp_files(files)` runs only when the send did not raise. -/
def serverSendVideoToChat (sendOk : Bool) (fs : Finset String)
    (files : List String) : Finset String :=
  if sendOk then cleanupTempFiles fs files else fs

/-- The filesystem effect of `RenderVideoBot._send_video`: the per-file
unlink loop runs only when the send did not raise. -/
def renderSendVideo (sendOk : Bool) (fs : Finset String)
    (files : List String) : Finset String :=
  if sendOk then cleanupTempFiles fs files else fs

/-- Code: `shutil.rmtree(self.temp_dir, ignore_errors=True)` on shutdown: every
path under the temporary directory disappears, errors ignored (the operation
is total). -/
def rmtreeIgnoringErrors (fs : Finset String) (tempDir : String) : Finset String :=
  fs.filter (fun p => tempDir.isPrefixOf p = false)

theorem cleanupTempFiles_subset (files : List String) :
    ∀ fs : Finset String, cleanupTempFiles fs files ⊆ fs := by
  induction files with
  | nil => intro fs; exact fun p hp => hp
  | cons q rest ih =>
    intro fs
    have hstep : cleanupTempFiles fs (q :: rest) =
        cleanupTempFiles (fs.erase q) rest := rfl
    rw [hstep]
    exact fun p hp => Finset.erase_subset _ _ (ih (fs.erase q) hp)

theorem cleanupTempFiles_not_mem (files : List String) :
    ∀ fs : Finset String, ∀ p ∈ files, p ∉ cleanupTempFiles fs files := by
  induction files with
  | nil => intro fs p hp; exact absurd hp (List.not_mem_nil p)
  | cons q rest ih =>
    intro fs p hp
    have hstep : cleanupTempFiles fs (q :: rest) =
        cleanupTempFiles (fs.erase q) rest := rfl
    rw [hstep]
    rcases List.mem_cons.mp hp with hq | hrest
    · subst hq
      intro hmem
      exact Finset.not_mem_erase p fs
        (cleanupTempFiles_subset rest (fs.erase p) hmem)
    · exact ih (fs.erase q) p hrest

/-- C7 counterexample: a send attempt completes with an error
(`reply_video` raised, the broad `except` handler of `_send_video_to_chat`
reported it), and the downloaded file recorded for the request is NOT
deleted — the cleanup call sits inside the same `try` block after the send,
so it is skipped on error, against the claim that files are deleted whether
the send attempt succeeds or not. -/
theorem C7_failed_send_keeps_file :
    "v.mp4" ∈ serverSendVideoToChat false {"v.mp4"} ["v.mp4"] ∧
    "v.mp4" ∈ renderSendVideo false {"v.mp4"} ["v.mp4"] := by
  constructor <;> simp [serverSendVideoToChat, renderSendVideo]

/-- C7 (amended): after a send attempt that completes successfully, every
downloaded file recorded for the request is deleted with deletion errors
ignored (the cleanup is total and removes nothing else); after a send
attempt that raises, the files are left in place; and on shutdown the
temporary directory's contents are removed with errors ignored. -/
theorem C7_cleanup_best_effort (fs : Finset String) (files : List String)
    (tempDir : String) :
    (∀ p ∈ files, p ∉ serverSendVideoToChat true fs files) ∧
    (∀ p ∈ files, p ∉ renderSendVideo true fs files) ∧
    serverSendVideoToChat true fs files ⊆ fs ∧
    serverSendVideoToChat false fs files = fs ∧
    renderSendVideo false fs files = fs ∧
    (∀ p ∈ fs, tempDir.isPrefixOf p = true →
      p ∉ rmtreeIgnoringErrors fs tempDir) ∧
    rmtreeIgnoringErrors fs tempDir ⊆ fs := by
  refine ⟨?_, ?_, ?_, rfl, rfl, ?_, ?_⟩
  · intro p hp
    exact cleanupTempFiles_not_mem files fs p hp
  · intro p hp
    exact cleanupTempFiles_not_mem files fs p hp
  · exact cleanupTempFiles_subset files fs
  · intro p _ hpre hmem
    rcases Finset.mem_filter.mp hmem with ⟨_, hfalse⟩
    rw [hpre] at hfalse
    exact Bool.noConfusion hfalse
  · exact Finset.filter_subset _ _

theorem C7_cleanup_best_effort_witness :
    (∀ p ∈ ["a"], p ∉ serverSendVideoToChat true {"a"} ["a"]) ∧
    (∀ p ∈ ["a"], p ∉ renderSendVideo true {"a"} ["a"]) ∧
    serverSendVideoToChat true {"a"} ["a"] ⊆ {"a"} ∧
    serverSendVideoToChat false {"a"} ["a"] = {"a"} ∧
    renderSendVideo false {"a"} ["a"] = {"a"} ∧
    (∀ p ∈ ({"a"} : Finset String), "t".isPrefixOf p = true →
      p ∉ rmtreeIgnoringErrors {"a"} "t") ∧
    rmtreeIgnoringErrors {"a"} "t" ⊆ {"a"} :=
  C7_cleanup_best_effort {"a"} ["a"] "t"

/-! ## User-facing reply templates and their lengths (C4, C8)

The fixed texts below transcribe the `edit_text` arguments of
`RenderVideoBot._process_video_url` (render_bot.py lines 319-473).
Lengths count Unicode code points, as Telegram's 4096-character message
limit does. -/

/-- Reply when both extraction paths returned `None`
(render_bot.py lines 326-338). -/
def noInfoReply : String :=
  "❌ Не удалось получить информацию\n\n🔍 **Возможные причины:**\n• Региональные ограничения\n• Возрастные ограничения (18+)\n• Блокировка скачивания автором\n• Приватное/удаленное видео\n• Проблемы с сервером YouTube\n\n💡 **Попробуйте:**\n• Другое видео с того же канала\n• Видео без возрастных ограничений\n• Публичные видео"

/-- Reply for `error_type == 'rate_limited'` (render_bot.py lines 345-354). -/
def rateLimitedReply : String :=
  "🚫 **YouTube блокирует сервер Render**\n\n❌ Ошибка 429: Слишком много запросов\n🤖 Render использует общие IP-адреса\n\n💡 **Решения:**\n• Попробуйте через 10-15 минут\n• Используйте другой хостинг\n• Скачайте локально через программу"

/-- Reply for `error_type == 'age_restricted'` (render_bot.py lines 355-364). -/
def ageRestrictedReply : String :=
  "🔞 **Видео имеет возрастные ограничения**\n\n❌ YouTube требует авторизацию для просмотра\n🤖 Бот не может пройти проверку возраста\n\n💡 **Решения:**\n• Найдите версию без ограничений\n• Используйте другой источник\n• Скачайте через браузер с авторизацией"

/-- Reply for `error_type == 'live_content'` (render_bot.py lines 365-374). -/
def liveContentReply : String :=
  "📺 **Проблема с прямым эфиром/стримом**\n\n❌ Стримы и премьеры сложно скачивать\n🤖 Требуется специальная обработка\n\n💡 **Попробуйте:**\n• Дождитесь окончания стрима\n• Найдите обычную запись\n• Используйте другое видео"

/-- Reply for `error_type == 'geo_blocked'` (render_bot.py lines 375-381). -/
def geoBlockedReply : String :=
  "🌍 **Географические ограничения**\n\n❌ Видео недоступно в вашем регионе\n🤖 Сервер находится в другой стране\n\n💡 **Попробуйте другое видео**"

/-- Reply for `error_type == 'unavailable'` (render_bot.py lines 382-387). -/
def unavailableReply : String :=
  "📹 **Видео недоступно**\n\n❌ Видео приватное, удалено или заблокировано\n\n💡 **Попробуйте другое видео**"

/-- Python slicing `s[:n]`: the first `n` code points. -/
def pyTake (n : Nat) (s : String) : String :=
  ⟨s.data.take n⟩

/-- The generic error reply of `RenderVideoBot._process_video_url`
(render_bot.py line 473): `f"❌ Ошибка: {error_msg[:100]}..."`. -/
def renderGenericErrorReply (errMsg : String) : String :=
  "❌ Ошибка: " ++ pyTake 100 errMsg ++ "..."

/-- The generic error reply of `ServerVideoBot._process_video_url`
(server_bot.py line 287): `f"❌ Ошибка: {str(e)}"`, with the exception text
embedded untruncated. -/
def serverGenericErrorReply (errMsg : String) : String :=
  "❌ Ошибка: " ++ errMsg

theorem string_length_data (s : String) : s.length = s.data.length := rfl

theorem serverGenericErrorReply_length (m : String) :
    (serverGenericErrorReply m).length = 10 + m.length := by
  rw [string_length_data, serverGenericErrorReply, string_data_append,
    List.length_append]
  rfl

/-- C8 counterexample: an exception whose text is 4090 characters long makes
`ServerVideoBot._process_video_url` produce the reply
`"❌ Ошибка: " + str(e)` of length 4100 ≥ 4096 — the server bot embeds the
exception text untruncated, so its error reply is not always under 4096
characters. -/
theorem C8_untruncated_reply_too_long :
    4096 ≤ (serverGenericErrorReply ⟨List.replicate 4090 'a'⟩).length := by
  rw [serverGenericErrorReply_length]
  have h : (⟨List.replicate 4090 'a'⟩ : String).length = 4090 := by
    rw [string_length_data]
    exact List.length_replicate 4090 'a'
  omega

set_option maxRecDepth 20000 in
/-- C8 (amended): every fixed error-reply template of the handlers and the
truncating generic reply of `RenderVideoBot._process_video_url`
(the f-string interpolating the first 100 characters of the exception text
before an ellipsis) is under 4096 characters, but the generic reply of
`ServerVideoBot._process_video_url` embeds the exception text untruncated —
its length is `10 + len(str(e))`, which passes 4096 for long exception
texts. -/
theorem C8_reply_length_bounds (m : String) :
    (renderGenericErrorReply m).length < 4096 ∧
    noInfoReply.length < 4096 ∧
    rateLimitedReply.length < 4096 ∧
    ageRestrictedReply.length < 4096 ∧
    liveContentReply.length < 4096 ∧
    geoBlockedReply.length < 4096 ∧
    unavailableReply.length < 4096 ∧
    (serverGenericErrorReply m).length = 10 + m.length := by
  refine ⟨?_, by decide, by decide, by decide, by decide, by decide, by decide,
    serverGenericErrorReply_length m⟩
  rw [string_length_data, renderGenericErrorReply, string_data_append,
    string_data_append, List.length_append, List.length_append]
  have h1 : (pyTake 100 m).data.length ≤ 100 := by
    rw [pyTake]
    simp only [List.length_take]
    omega
  have h2 : ("❌ Ошибка: " : String).data.length = 10 := by decide
  have h3 : ("..." : String).data.length = 3 := by decide
  omega

/-! ## Metadata extraction with retries
(`RenderVideoBot.get_video_info`, render_bot.py lines 505-594) (C3, C4) -/

/-- The yt-dlp option fields set by the three presets of `get_video_info`. -/
structure YdlOpts where
  quiet : Bool
  no_warnings : Bool
  extract_flat : Bool
  skip_download : Bool
  format : Option String
  geo_bypass : Bool
  geo_bypass_country : Option String
  extractor_retries : Option Nat
deriving DecidableEq

/-- Attempt 1 preset: base settings, US geo-bypass, best quality up to
720p. -/
def attemptOpts1 : YdlOpts :=
  { quiet := true, no_warnings := true, extract_flat := false,
    skip_download := true, format := some "best[height<=720]/best",
    geo_bypass := true, geo_bypass_country := some "US",
    extractor_retries := none }

/-- Attempt 2 preset: GB geo-bypass, worst quality up to 480p, one extractor
retry. -/
def attemptOpts2 : YdlOpts :=
  { quiet := true, no_warnings := true, extract_flat := false,
    skip_download := true, format := some "worst[height<=480]/worst",
    geo_bypass := true, geo_bypass_country := some "GB",
    extractor_retries := some 1 }

/-- Attempt 3 preset: minimal flat extraction. -/
def attemptOpts3 : YdlOpts :=
  { quiet := true, no_warnings := true, extract_flat := true,
    skip_download := true, format := none,
    geo_bypass := true, geo_bypass_country := none,
    extractor_retries := none }

/-- The `attempts` list of `get_video_info`, in source order. -/
def attemptsList : List YdlOpts := [attemptOpts1, attemptOpts2, attemptOpts3]

/-- The fields of a yt-dlp format entry that `get_video_info` reads. -/
structure RawFormat where
  height : Option Nat
  filesize : Option Nat
  filesize_approx : Option Nat
deriving DecidableEq

/-- The fields of the yt-dlp info dictionary that `get_video_info` reads
(a missing key is `none`). -/
structure RawInfo where
  title : Option String
  uploader : Option String
  duration : Option Nat
  view_count : Option Nat
  upload_date : Option String
  formats : List RawFormat
  filesize : Option Nat
  filesize_approx : Option Nat
deriving DecidableEq

/-- Python's `x or y` for a possibly missing integer `x`: `None` and `0` are
falsy, any other number is returned as is. -/
def pyOrNat (a : Option Nat) (b : Nat) : Nat :=
  match a with
  | none => b
  | some n => if n = 0 then b else n

/-- The `for fmt in formats` scan of `get_video_info` (render_bot.py lines
552-556): the first format of height at most 720 with a non-zero
`filesize`/`filesize_approx` determines the size; otherwise 0 remains. -/
def findFormatSize : List RawFormat → Nat
  | [] => 0
  | f :: rest =>
    if f.height.getD 0 ≤ 720 then
      let fs := pyOrNat f.filesize (f.filesize_approx.getD 0)
      if fs ≠ 0 then fs else findFormatSize rest
    else findFormatSize rest

/-- The `file_size` computed by a successful attempt, including the
info-level fallback `info.get('filesize', 0) or info.get('filesize_approx', 0)`
(render_bot.py lines 558-559). -/
def infoFileSize (raw : RawInfo) : Nat :=
  let fs := findFormatSize raw.formats
  if fs = 0 then pyOrNat raw.filesize (raw.filesize_approx.getD 0) else fs

/-- The metadata dictionary returned by a successful `get_video_info`
attempt (render_bot.py lines 563-571). -/
structure VideoInfo where
  title : String
  uploader : String
  duration : Nat
  file_size : Nat
  view_count : Nat
  upload_date : String
  attempt : Nat
deriving DecidableEq

/-- Builder of the success dictionary for attempt number `i`. -/
def rawToVideoInfo (raw : RawInfo) (i : Nat) : VideoInfo :=
  { title := raw.title.getD "Неизвестно",
    uploader := raw.uploader.getD "Неизвестный канал",
    duration := raw.duration.getD 0,
    file_size := infoFileSize raw,
    view_count := raw.view_count.getD 0,
    upload_date := raw.upload_date.getD "",
    attempt := i }

/-- Substring test on character lists (Python's `pat in hay`). -/
def hasSub (pat : List Char) : List Char → Bool
  | [] => pat.isEmpty
  | c :: t => pat.isPrefixOf (c :: t) || hasSub pat t

/-- Python's `pat in hay` on strings. -/
def strIn (pat hay : String) : Bool := hasSub pat.data hay.data

/-- Python's `str.lower()` as used by `error_msg = str(e).lower()`;
modelled per character (ASCII case folding).  Every keyword the
classification compares against is pure ASCII, so folding only ASCII
letters classifies exactly as the source does. -/
def pyLower (s : String) : String := ⟨s.data.map Char.toLower⟩

/-- Condition `'429' in error_msg or 'too many requests' in error_msg` on
the lowercased exception text (render_bot.py line 578). -/
def isRateLimitedMsg (e : String) : Bool :=
  strIn "429" (pyLower e) || strIn "too many requests" (pyLower e)

/-- The keyword `elif` chain classifying a non-429 failure (render_bot.py
lines 584-591): the `error_type` string, or `none` when no keyword matches
(the loop then simply moves to the next preset). -/
def classifyOtherError (e : String) : Option String :=
  let m := pyLower e
  if ["sign in", "age", "restricted", "login"].any (fun k => strIn k m) then
    some "age_restricted"
  else if ["live", "stream", "premiere"].any (fun k => strIn k m) then
    some "live_content"
  else if ["private", "unavailable", "deleted"].any (fun k => strIn k m) then
    some "unavailable"
  else if ["region", "country", "location"].any (fun k => strIn k m) then
    some "geo_blocked"
  else none

/-- The outcome of one `ydl.extract_info(url, download=False)` call: the
info dictionary, or the raised exception's text. -/
inductive ExtractOutcome where
  | success (raw : RawInfo)
  | failure (errMsg : String)
deriving DecidableEq

/-- What `get_video_info` returns: the metadata dictionary (which carries no
`error_type` key) or an error dictionary `{error_type, error_msg}`; `none`
models Python's `None`. -/
inductive GetInfoResult where
  | info (v : VideoInfo)
  | error (error_type : String) (error_msg : String)
deriving DecidableEq

/-- The retry loop of `get_video_info` over the remaining presets, where `i`
is the 1-based number of the next attempt and `ex i o` is the outcome of the
`i`-th extraction call when made with options `o`.  Returns the function's
result together with the presets actually passed to `yt_dlp.YoutubeDL`, in
call order. -/
def getVideoInfoGo (ex : Nat → YdlOpts → ExtractOutcome) :
    List YdlOpts → Nat → Option GetInfoResult × List YdlOpts
  | [], _ => (none, [])
  | o :: rest, i =>
    match ex i o with
    | .success raw => (some (.info (rawToVideoInfo raw i)), [o])
    | .failure e =>
      if isRateLimitedMsg e then
        if rest.isEmpty then (some (.error "rate_limited" e), [o])
        else
          let r := getVideoInfoGo ex rest (i + 1)
          (r.1, o :: r.2)
      else
        match classifyOtherError e with
        | some t => (some (.error t e), [o])
        | none =>
          let r := getVideoInfoGo ex rest (i + 1)
          (r.1, o :: r.2)

/-- Code: `RenderVideoBot.get_video_info` run against extraction oracle
`ex`. -/
def getVideoInfo (ex : Nat → YdlOpts → ExtractOutcome) : Option GetInfoResult :=
  (getVideoInfoGo ex attemptsList 1).1

/-- The sequence of presets `get_video_info` actually calls `yt_dlp` with,
in order. -/
def getVideoInfoCalls (ex : Nat → YdlOpts → ExtractOutcome) : List YdlOpts :=
  (getVideoInfoGo ex attemptsList 1).2

theorem getVideoInfoGo_success (ex : Nat → YdlOpts → ExtractOutcome)
    (o : YdlOpts) (rest : List YdlOpts) (i : Nat) (raw : RawInfo)
    (hex : ex i o = .success raw) :
    getVideoInfoGo ex (o :: rest) i =
      (some (.info (rawToVideoInfo raw i)), [o]) := by
  simp [getVideoInfoGo, hex]

theorem getVideoInfoGo_rate_last (ex : Nat → YdlOpts → ExtractOutcome)
    (o : YdlOpts) (i : Nat) (e : String) (hex : ex i o = .failure e)
    (hrl : isRateLimitedMsg e = true) :
    getVideoInfoGo ex [o] i = (some (.error "rate_limited" e), [o]) := by
  simp [getVideoInfoGo, hex, hrl]

theorem getVideoInfoGo_rate_cont (ex : Nat → YdlOpts → ExtractOutcome)
    (o o2 : YdlOpts) (rest : List YdlOpts) (i : Nat) (e : String)
    (hex : ex i o = .failure e) (hrl : isRateLimitedMsg e = true) :
    getVideoInfoGo ex (o :: o2 :: rest) i =
      ((getVideoInfoGo ex (o2 :: rest) (i + 1)).1,
        o :: (getVideoInfoGo ex (o2 :: rest) (i + 1)).2) := by
  simp [getVideoInfoGo, hex, hrl]

theorem getVideoInfoGo_classified (ex : Nat → YdlOpts → ExtractOutcome)
    (o : YdlOpts) (rest : List YdlOpts) (i : Nat) (e t : String)
    (hex : ex i o = .failure e) (hrl : isRateLimitedMsg e = false)
    (hcl : classifyOtherError e = some t) :
    getVideoInfoGo ex (o :: rest) i = (some (.error t e), [o]) := by
  simp [getVideoInfoGo, hex, hrl, hcl]

theorem getVideoInfoGo_unclassified (ex : Nat → YdlOpts → ExtractOutcome)
    (o : YdlOpts) (rest : List YdlOpts) (i : Nat) (e : String)
    (hex : ex i o = .failure e) (hrl : isRateLimitedMsg e = false)
    (hcl : classifyOtherError e = none) :
    getVideoInfoGo ex (o :: rest) i =
      ((getVideoInfoGo ex rest (i + 1)).1,
        o :: (getVideoInfoGo ex rest (i + 1)).2) := by
  simp [getVideoInfoGo, hex, hrl, hcl]

theorem getVideoInfoGo_calls_order (ex : Nat → YdlOpts → ExtractOutcome) :
    ∀ (l : List YdlOpts) (i : Nat), (getVideoInfoGo ex l i).2 <+: l := by
  intro l
  induction l with
  | nil =>
    intro i
    exact List.prefix_refl []
  | cons o rest ih =>
    intro i
    cases hex : ex i o with
    | success raw =>
      rw [getVideoInfoGo_success ex o rest i raw hex]
      exact ⟨rest, rfl⟩
    | failure e =>
      cases hrl : isRateLimitedMsg e with
      | true =>
        cases rest with
        | nil =>
          rw [getVideoInfoGo_rate_last ex o i e hex hrl]
        | cons o2 rest2 =>
          rw [getVideoInfoGo_rate_cont ex o o2 rest2 i e hex hrl]
          rcases ih (i + 1) with ⟨t, ht⟩
          exact ⟨t, by rw [List.cons_append, ht]⟩
      | false =>
        cases hcl : classifyOtherError e with
        | some t =>
          rw [getVideoInfoGo_classified ex o rest i e t hex hrl hcl]
          exact ⟨rest, rfl⟩
        | none =>
          rw [getVideoInfoGo_unclassified ex o rest i e hex hrl hcl]
          rcases ih (i + 1) with ⟨t, ht⟩
          exact ⟨t, by rw [List.cons_append, ht]⟩

theorem getVideoInfoGo_success_result (ex : Nat → YdlOpts → ExtractOutcome) :
    ∀ (l : List YdlOpts) (i k : Nat) (o : YdlOpts) (raw : RawInfo),
      (getVideoInfoGo ex l i).2[k]? = some o →
      ex (i + k) o = .success raw →
      (getVideoInfoGo ex l i).1 = some (.info (rawToVideoInfo raw (i + k))) := by
  intro l
  induction l with
  | nil =>
    intro i k o raw hk
    simp [getVideoInfoGo] at hk
  | cons o1 rest ih =>
    intro i k o raw hk hsucc
    cases hex : ex i o1 with
    | success raw1 =>
      rw [getVideoInfoGo_success ex o1 rest i raw1 hex] at hk ⊢
      match k with
      | 0 =>
        simp only [List.getElem?_cons_zero, Option.some.injEq] at hk
        subst hk
        rw [Nat.add_zero] at hsucc
        rw [hex] at hsucc
        cases hsucc
        rw [Nat.add_zero]
      | j + 1 =>
        simp at hk
    | failure e =>
      cases hrl : isRateLimitedMsg e with
      | true =>
        cases rest with
        | nil =>
          rw [getVideoInfoGo_rate_last ex o1 i e hex hrl] at hk ⊢
          match k with
          | 0 =>
            simp only [List.getElem?_cons_zero, Option.some.injEq] at hk
            subst hk
            rw [Nat.add_zero, hex] at hsucc
            cases hsucc
          | j + 1 =>
            simp at hk
        | cons o2 rest2 =>
          rw [getVideoInfoGo_rate_cont ex o1 o2 rest2 i e hex hrl] at hk ⊢
          match k with
          | 0 =>
            simp only [List.getElem?_cons_zero, Option.some.injEq] at hk
            subst hk
            rw [Nat.add_zero, hex] at hsucc
            cases hsucc
          | j + 1 =>
            simp only [List.getElem?_cons_succ] at hk
            have hidx : i + (j + 1) = (i + 1) + j := by omega
            rw [hidx] at hsucc ⊢
            exact ih (i + 1) j o raw hk hsucc
      | false =>
        cases hcl : classifyOtherError e with
        | some t =>
          rw [getVideoInfoGo_classified ex o1 rest i e t hex hrl hcl] at hk ⊢
          match k with
          | 0 =>
            simp only [List.getElem?_cons_zero, Option.some.injEq] at hk
            subst hk
            rw [Nat.add_zero, hex] at hsucc
            cases hsucc
          | j + 1 =>
            simp at hk
        | none =>
          rw [getVideoInfoGo_unclassified ex o1 rest i e hex hrl hcl] at hk ⊢
          match k with
          | 0 =>
            simp only [List.getElem?_cons_zero, Option.some.injEq] at hk
            subst hk
            rw [Nat.add_zero, hex] at hsucc
            cases hsucc
          | j + 1 =>
            simp only [List.getElem?_cons_succ] at hk
            have hidx : i + (j + 1) = (i + 1) + j := by omega
            rw [hidx] at hsucc ⊢
            exact ih (i + 1) j o raw hk hsucc

theorem getVideoInfoGo_nonfinal_continue (ex : Nat → YdlOpts → ExtractOutcome) :
    ∀ (l : List YdlOpts) (i k : Nat),
      k + 1 < (getVideoInfoGo ex l i).2.length →
      ∃ o e, (getVideoInfoGo ex l i).2[k]? = some o ∧
        ex (i + k) o = .failure e ∧
        (isRateLimitedMsg e = true ∨ classifyOtherError e = none) := by
  intro l
  induction l with
  | nil =>
    intro i k hk
    simp [getVideoInfoGo] at hk
  | cons o1 rest ih =>
    intro i k hk
    cases hex : ex i o1 with
    | success raw1 =>
      rw [getVideoInfoGo_success ex o1 rest i raw1 hex] at hk
      simp at hk
    | failure e =>
      cases hrl : isRateLimitedMsg e with
      | true =>
        cases rest with
        | nil =>
          rw [getVideoInfoGo_rate_last ex o1 i e hex hrl] at hk
          simp at hk
        | cons o2 rest2 =>
          rw [getVideoInfoGo_rate_cont ex o1 o2 rest2 i e hex hrl] at hk ⊢
          match k with
          | 0 =>
            exact ⟨o1, e, by simp, by rw [Nat.add_zero]; exact hex, Or.inl hrl⟩
          | j + 1 =>
            simp only [List.length_cons, Nat.add_lt_add_iff_right] at hk
            rcases ih (i + 1) j hk with ⟨o, e2, h1, h2, h3⟩
            refine ⟨o, e2, by simpa using h1, ?_, h3⟩
            have hidx : i + (j + 1) = (i + 1) + j := by omega
            rw [hidx]
            exact h2
      | false =>
        cases hcl : classifyOtherError e with
        | some t =>
          rw [getVideoInfoGo_classified ex o1 rest i e t hex hrl hcl] at hk
          simp at hk
        | none =>
          rw [getVideoInfoGo_unclassified ex o1 rest i e hex hrl hcl] at hk ⊢
          match k with
          | 0 =>
            exact ⟨o1, e, by simp, by rw [Nat.add_zero]; exact hex, Or.inr hcl⟩
          | j + 1 =>
            simp only [List.length_cons, Nat.add_lt_add_iff_right] at hk
            rcases ih (i + 1) j hk with ⟨o, e2, h1, h2, h3⟩
            refine ⟨o, e2, by simpa using h1, ?_, h3⟩
            have hidx : i + (j + 1) = (i + 1) + j := by omega
            rw [hidx]
            exact h2

theorem classifyOtherError_mem (e t : String)
    (h : classifyOtherError e = some t) :
    t = "age_restricted" ∨ t = "live_content" ∨ t = "unavailable" ∨
      t = "geo_blocked" := by
  simp only [classifyOtherError] at h
  split_ifs at h <;> simp only [Option.some.injEq] at h <;> subst h <;> tauto

theorem getVideoInfoGo_error_types (ex : Nat → YdlOpts → ExtractOutcome) :
    ∀ (l : List YdlOpts) (i : Nat) (t m : String),
      (getVideoInfoGo ex l i).1 = some (.error t m) →
      t = "rate_limited" ∨ t = "age_restricted" ∨ t = "live_content" ∨
        t = "unavailable" ∨ t = "geo_blocked" := by
  intro l
  induction l with
  | nil =>
    intro i t m h
    simp [getVideoInfoGo] at h
  | cons o1 rest ih =>
    intro i t m h
    cases hex : ex i o1 with
    | success raw1 =>
      rw [getVideoInfoGo_success ex o1 rest i raw1 hex] at h
      simp at h
    | failure e =>
      cases hrl : isRateLimitedMsg e with
      | true =>
        cases rest with
        | nil =>
          rw [getVideoInfoGo_rate_last ex o1 i e hex hrl] at h
          simp only [Option.some.injEq, GetInfoResult.error.injEq] at h
          exact Or.inl h.1.symm
        | cons o2 rest2 =>
          rw [getVideoInfoGo_rate_cont ex o1 o2 rest2 i e hex hrl] at h
          exact ih (i + 1) t m h
      | false =>
        cases hcl : classifyOtherError e with
        | some t2 =>
          rw [getVideoInfoGo_classified ex o1 rest i e t2 hex hrl hcl] at h
          simp only [Option.some.injEq, GetInfoResult.error.injEq] at h
          rcases h with ⟨ht, _⟩
          exact Or.inr (ht ▸ classifyOtherError_mem e t2 hcl)
        | none =>
          rw [getVideoInfoGo_unclassified ex o1 rest i e hex hrl hcl] at h
          exact ih (i + 1) t m h

/-- The `elif` dispatch on `video_info['error_type']` in
`RenderVideoBot._process_video_url` (render_bot.py lines 342-388): the
status-message text edited in for each error type; `none` for an
unrecognized type (no branch would run, the handler just returns). -/
def renderErrorReply (t : String) : Option String :=
  if t = "rate_limited" then some rateLimitedReply
  else if t = "age_restricted" then some ageRestrictedReply
  else if t = "live_content" then some liveContentReply
  else if t = "geo_blocked" then some geoBlockedReply
  else if t = "unavailable" then some unavailableReply
  else none

/-- C3: `get_video_info` makes at most 3 extraction attempts, always with a
prefix of the fixed preset list `[US best<=720p, GB worst<=480p, flat
minimal]` in that order; the first successful attempt's dictionary is
returned (tagged with its 1-based attempt number), and every attempt that
has a successor in the call sequence failed with either a rate-limit (429)
error or an unclassified error — so no further extraction call is ever made
after a success or after a classified non-rate-limit failure, and no retry
mechanism beyond this fixed list exists. -/
theorem C3_get_video_info_retries (ex : Nat → YdlOpts → ExtractOutcome) :
    attemptsList = [attemptOpts1, attemptOpts2, attemptOpts3] ∧
    (getVideoInfoCalls ex).length ≤ 3 ∧
    getVideoInfoCalls ex <+: attemptsList ∧
    (∀ raw, ex 1 attemptOpts1 = .success raw →
      getVideoInfo ex = some (.info (rawToVideoInfo raw 1)) ∧
      getVideoInfoCalls ex = [attemptOpts1]) ∧
    (∀ k o raw, (getVideoInfoCalls ex)[k]? = some o →
      ex (1 + k) o = .success raw →
      getVideoInfo ex = some (.info (rawToVideoInfo raw (1 + k)))) ∧
    (∀ k, k + 1 < (getVideoInfoCalls ex).length →
      ∃ o e, (getVideoInfoCalls ex)[k]? = some o ∧
        ex (1 + k) o = .failure e ∧
        (isRateLimitedMsg e = true ∨ classifyOtherError e = none)) := by
  refine ⟨rfl, ?_, getVideoInfoGo_calls_order ex attemptsList 1, ?_, ?_, ?_⟩
  · have h := (getVideoInfoGo_calls_order ex attemptsList 1).length_le
    simpa [attemptsList] using h
  · intro raw hex
    have h := getVideoInfoGo_success ex attemptOpts1
      [attemptOpts2, attemptOpts3] 1 raw hex
    constructor
    · rw [getVideoInfo, attemptsList, h]
    · rw [getVideoInfoCalls, attemptsList, h]
  · intro k o raw hk hsucc
    exact getVideoInfoGo_success_result ex attemptsList 1 k o raw hk hsucc
  · intro k hk
    exact getVideoInfoGo_nonfinal_continue ex attemptsList 1 k hk

/-- A fixed extraction oracle whose every call raises an HTTP 429 error,
used to instantiate the universally quantified theorems on a concrete
run. -/
def alwaysRateLimited : Nat → YdlOpts → ExtractOutcome :=
  fun _ _ => .failure "HTTP Error 429: Too Many Requests"

theorem C3_get_video_info_retries_witness :
    attemptsList = [attemptOpts1, attemptOpts2, attemptOpts3] ∧
    (getVideoInfoCalls alwaysRateLimited).length ≤ 3 ∧
    getVideoInfoCalls alwaysRateLimited <+: attemptsList ∧
    (∀ raw, alwaysRateLimited 1 attemptOpts1 = .success raw →
      getVideoInfo alwaysRateLimited = some (.info (rawToVideoInfo raw 1)) ∧
      getVideoInfoCalls alwaysRateLimited = [attemptOpts1]) ∧
    (∀ k o raw, (getVideoInfoCalls alwaysRateLimited)[k]? = some o →
      alwaysRateLimited (1 + k) o = .success raw →
      getVideoInfo alwaysRateLimited =
        some (.info (rawToVideoInfo raw (1 + k)))) ∧
    (∀ k, k + 1 < (getVideoInfoCalls alwaysRateLimited).length →
      ∃ o e, (getVideoInfoCalls alwaysRateLimited)[k]? = some o ∧
        alwaysRateLimited (1 + k) o = .failure e ∧
        (isRateLimitedMsg e = true ∨ classifyOtherError e = none)) :=
  C3_get_video_info_retries alwaysRateLimited

set_option maxRecDepth 40000 in
/-- C4: for every extraction oracle, `get_video_info` returns exactly one
of: a metadata dictionary (the `info` case, which carries no `error_type`),
`None`, or an error dictionary whose `error_type` is one of `rate_limited`,
`age_restricted`, `live_content`, `unavailable`, `geo_blocked`; and
`_process_video_url` maps each of these error types — plus the `None` case —
to its own fixed user-facing message template, the six templates being
pairwise distinct. -/
theorem C4_error_mapping (ex : Nat → YdlOpts → ExtractOutcome) :
    (getVideoInfo ex = none ∨
      (∃ v, getVideoInfo ex = some (.info v)) ∨
      (∃ t m, getVideoInfo ex = some (.error t m) ∧
        (t = "rate_limited" ∨ t = "age_restricted" ∨ t = "live_content" ∨
          t = "unavailable" ∨ t = "geo_blocked"))) ∧
    renderErrorReply "rate_limited" = some rateLimitedReply ∧
    renderErrorReply "age_restricted" = some ageRestrictedReply ∧
    renderErrorReply "live_content" = some liveContentReply ∧
    renderErrorReply "geo_blocked" = some geoBlockedReply ∧
    renderErrorReply "unavailable" = some unavailableReply ∧
    List.Pairwise (fun a b => a ≠ b)
      [noInfoReply, rateLimitedReply, ageRestrictedReply, liveContentReply,
        geoBlockedReply, unavailableReply] := by
  refine ⟨?_, by decide, by decide, by decide, by decide, by decide, by decide⟩
  cases hres : getVideoInfo ex with
  | none => exact Or.inl rfl
  | some r =>
    cases r with
    | info v => exact Or.inr (Or.inl ⟨v, rfl⟩)
    | error t m =>
      refine Or.inr (Or.inr ⟨t, m, rfl, ?_⟩)
      exact getVideoInfoGo_error_types ex attemptsList 1 t m hres

theorem C4_error_mapping_witness :
    (getVideoInfo alwaysRateLimited = none ∨
      (∃ v, getVideoInfo alwaysRateLimited = some (.info v)) ∨
      (∃ t m, getVideoInfo alwaysRateLimited = some (.error t m) ∧
        (t = "rate_limited" ∨ t = "age_restricted" ∨ t = "live_content" ∨
          t = "unavailable" ∨ t = "geo_blocked"))) ∧
    renderErrorReply "rate_limited" = some rateLimitedReply ∧
    renderErrorReply "age_restricted" = some ageRestrictedReply ∧
    renderErrorReply "live_content" = some liveContentReply ∧
    renderErrorReply "geo_blocked" = some geoBlockedReply ∧
    renderErrorReply "unavailable" = some unavailableReply ∧
    List.Pairwise (fun a b => a ≠ b)
      [noInfoReply, rateLimitedReply, ageRestrictedReply, liveContentReply,
        geoBlockedReply, unavailableReply] :=
  C4_error_mapping alwaysRateLimited

theorem C8_reply_length_bounds_witness :
    (renderGenericErrorReply "boom").length < 4096 ∧
    noInfoReply.length < 4096 ∧
    rateLimitedReply.length < 4096 ∧
    ageRestrictedReply.length < 4096 ∧
    liveContentReply.length < 4096 ∧
    geoBlockedReply.length < 4096 ∧
    unavailableReply.length < 4096 ∧
    (serverGenericErrorReply "boom").length = 10 + ("boom" : String).length :=
  C8_reply_length_bounds "boom"

theorem C9_no_arg_usage_reply_witness :
    serverDownloadCommand [] ⟨∅, ∅⟩ = (.replyText
      "❌ Укажите ссылку!\nПример: /download https://youtu.be/dQw4w9WgXcQ", ⟨∅, ∅⟩) ∧
    serverInfoCommand [] ⟨∅, ∅⟩ = (.replyText
      "❌ Укажите ссылку!\nПример: /info https://youtu.be/dQw4w9WgXcQ", ⟨∅, ∅⟩) ∧
    renderDownloadCommand [] ⟨∅, ∅⟩ = (.replyText
      "❌ Укажите ссылку!\nПример: /download https://youtu.be/dQw4w9WgXcQ", ⟨∅, ∅⟩) ∧
    renderCheckCommand [] ⟨∅, ∅⟩ = (.replyText
      "❌ Укажите ссылку для проверки!\nПример: /check https://youtu.be/dQw4w9WgXcQ", ⟨∅, ∅⟩) ∧
    (∀ msg url d, HandlerAction.replyText msg ≠ HandlerAction.processUrl url d) ∧
    (∀ msg url, HandlerAction.replyText msg ≠ HandlerAction.checkUrl url) :=
  C9_no_arg_usage_reply ⟨∅, ∅⟩
